import Mathlib

/-
  Verification of the crawl_enrich company-data enrichment pipeline.

  Shallow embedding of the merge / update-worthiness / deduplication logic of
  src/main.py, src/src/perplexity_enricher.py and src/src/firmographics_analyzer.py.

  Conventions of the embedding:
  - Python dicts with a fixed key set become structures; a dict that may be `{}`
    (falsy) becomes an `Option` of the structure, `none` standing for `{}`.
  - Python numbers become `Int` (employee totals) or `ℚ` (revenue amounts);
    `float` thresholds such as `0.15` / `0.2` become the exact rationals
    `15/100` / `1/5`.
  - Fallible fetches (`_get_employee_data` and friends) are parameters of type
    `Option _` / `List _`: `none` / `[]` is the `{}` / `[]` the Python code
    returns after exhausting retries.
-/

namespace CrawlEnrich

/- A news entry as produced by `_extract_news_updates` and `_get_additional_news`:
   keys source, date, title, url, type. -/
structure NewsItem where
  source : String
  date : String
  title : String
  url : String
  type : String
deriving DecidableEq

/- The hq_address object: keys country, city, state, postal_code, full_address
   (src/src/firmographics_analyzer.py lines 371-377). An absent address is the
   empty dict `{}`, modelled as `none` at use sites. -/
structure Location where
  country : String
  city : String
  state : String
  postal_code : String
  full_address : String
deriving DecidableEq

/- The revenue object: keys amount, currency, range. A missing / null / zero
   amount is all the Python truthiness test `not current_amount` accepts, so the
   amount is a ℚ with 0 as the absence sentinel. -/
structure Revenue where
  amount : ℚ
  currency : String
  range : String
deriving DecidableEq

/- The employees object: keys total, it_staff; either may be absent or null. -/
structure Employees where
  total : Option Int
  it_staff : Option Int
deriving DecidableEq

/- `f"{news.get('source','')}-{news.get('date','')}-{news.get('title','')}"`
   (src/main.py line 76 / 81, src/src/perplexity_enricher.py line 80 / 86). -/
def news_identifier (news : NewsItem) : String :=
  news.source ++ "-" ++ news.date ++ "-" ++ news.title

/- The (source, date, title) triple the spec declares as the uniqueness key. -/
def news_key (news : NewsItem) : String × String × String :=
  (news.source, news.date, news.title)

/- No two entries of the list carry the same (source, date, title) triple. -/
def distinct_news (l : List NewsItem) : Prop :=
  l.Pairwise fun a b => news_key a ≠ news_key b

instance (l : List NewsItem) : Decidable (distinct_news l) := by
  unfold distinct_news; infer_instance

/- The news loop of src/main.py lines 80-84: walk the fetched items, appending
   each whose identifier is not in the running identifier set, and adding the
   identifier of every appended item to the set. -/
def append_news (company_news : List NewsItem) (idents : List String) :
    List NewsItem → List NewsItem
  | [] => company_news
  | item :: rest =>
    if news_identifier item ∈ idents then append_news company_news idents rest
    else append_news (company_news ++ [item]) (news_identifier item :: idents) rest

/- src/main.py lines 74-84: the identifier set starts as the identifiers of the
   entries already present in news_updates. -/
def merge_news (existing additional : List NewsItem) : List NewsItem :=
  append_news existing (existing.map news_identifier) additional

/- One entry of similar_companies: keys name, url, description
   (src/src/firmographics_analyzer.py lines 421-425). -/
structure SimilarCompany where
  name : String
  url : String
  description : String
deriving DecidableEq

/- src/src/perplexity_enricher.py lines 95-117, `_should_update_employees`.
   `current.get('total', 0)` followed by `int(current_total) if current_total
   else 0` maps a missing / null / zero total to 0, i.e. `total.getD 0`.
   The 15% threshold `0.15` is the rational 15/100. -/
def should_update_employees (current new : Employees) : Bool :=
  let current_total : Int := current.total.getD 0
  let new_total : Int := new.total.getD 0
  if current_total = 0 then true
  else if 0 < new_total then
    decide ((15 / 100 : ℚ) < |(current_total : ℚ) - (new_total : ℚ)| / (current_total : ℚ))
  else false

/- `sum(1 for v in current.values() if v)` over the five address keys
   (src/src/perplexity_enricher.py lines 121-122). -/
def count_location_fields (loc : Location) : Nat :=
  (if loc.country ≠ "" then 1 else 0) + (if loc.city ≠ "" then 1 else 0) +
  (if loc.state ≠ "" then 1 else 0) + (if loc.postal_code ≠ "" then 1 else 0) +
  (if loc.full_address ≠ "" then 1 else 0)

/- src/src/perplexity_enricher.py lines 127-130: number of the key fields
   country, city, state that are populated on both sides and equal after
   lower-casing. -/
def matching_key_fields (current new : Location) : Nat :=
  (if current.country ≠ "" ∧ new.country ≠ "" ∧
      current.country.toLower = new.country.toLower then 1 else 0) +
  (if current.city ≠ "" ∧ new.city ≠ "" ∧
      current.city.toLower = new.city.toLower then 1 else 0) +
  (if current.state ≠ "" ∧ new.state ≠ "" ∧
      current.state.toLower = new.state.toLower then 1 else 0)

/- src/src/perplexity_enricher.py lines 119-132, `_should_update_location`. -/
def should_update_location (current new : Location) : Bool :=
  if count_location_fields current < count_location_fields new then true
  else decide (matching_key_fields current new < 2 ∧
               count_location_fields current ≤ count_location_fields new)

/- `sum(1 for v in current.values() if v)` over amount, currency, range
   (src/src/perplexity_enricher.py lines 145-146). -/
def count_revenue_fields (rev : Revenue) : Nat :=
  (if rev.amount ≠ 0 then 1 else 0) + (if rev.currency ≠ "" then 1 else 0) +
  (if rev.range ≠ "" then 1 else 0)

/- `difference_ratio = abs(current_amount - new_amount) / current_amount`
   (src/src/perplexity_enricher.py line 143). -/
def relative_difference (current_amount new_amount : ℚ) : ℚ :=
  |current_amount - new_amount| / current_amount

/- src/src/perplexity_enricher.py lines 134-149, `_should_update_revenue`.
   The 20% threshold `0.2` is the rational 1/5. -/
def should_update_revenue (current new : Revenue) : Bool :=
  if current.amount = 0 ∧ new.amount ≠ 0 then true
  else if current.amount ≠ 0 ∧ new.amount ≠ 0 then
    if (1 / 5 : ℚ) < relative_difference current.amount new.amount then
      decide (count_revenue_fields current ≤ count_revenue_fields new)
    else false
  else false

/- The command-line flags read by `process_company` and `main`
   (src/main.py lines 119-137). -/
structure Args where
  validate_employees : Bool
  validate_location : Bool
  validate_revenue : Bool
  resume : Bool
deriving DecidableEq

/- The results of the four per-company Perplexity fetches, one enrichment pass:
   `_get_employee_data` (`none` = `{}` after exhausted retries, `some t` = the
   dict `{'total': t}`), `_get_location_data`, `_get_revenue_data`,
   `_get_additional_news`. -/
structure Fetched where
  employee : Option Int
  location : Option Location
  revenue : Option Revenue
  news : List NewsItem
deriving DecidableEq

/- The data dict of a reconciled company record
   (src/src/firmographics_analyzer.py lines 148-164). -/
structure CompanyData where
  company_url : String
  linkedin_uri : String
  employees : Employees
  hq_address : Option Location
  revenue : Option Revenue
  industry_verticals : List String
  similar_companies : List SimilarCompany
  technologies : List String
  news_updates : List NewsItem
deriving DecidableEq

structure Company where
  entityName : String
  data : CompanyData
deriving DecidableEq

/- src/main.py lines 43-52: the employee step of `process_company`.
   `company_data.get('employees', {}).get('total')` is truthy exactly when the
   total is present and non-zero, i.e. `total.getD 0 ≠ 0`. -/
def step_employees (args : Args) (f : Fetched) (employees : Employees) : Employees :=
  if args.validate_employees then
    if employees.total.getD 0 ≠ 0 then
      match f.employee with
      | some t =>
        if should_update_employees employees { total := some t, it_staff := none } then
          { employees with total := some t }
        else employees
      | none => employees
    else
      match f.employee with
      | some t => { total := some t, it_staff := none }
      | none => employees
  else employees

/- src/main.py lines 54-61: the location step of `process_company`. An empty
   current address (`{}`) takes whatever `_get_location_data` returns. -/
def step_hq (args : Args) (f : Fetched) (hq : Option Location) : Option Location :=
  if args.validate_location then
    match hq with
    | some current =>
      match f.location with
      | some newLoc =>
        if should_update_location current newLoc then some newLoc else some current
      | none => some current
    | none => f.location
  else hq

/- src/main.py lines 63-70: the revenue step of `process_company`. -/
def step_revenue (args : Args) (f : Fetched) (revenue : Option Revenue) : Option Revenue :=
  if args.validate_revenue then
    match revenue with
    | some current =>
      match f.revenue with
      | some newRev =>
        if should_update_revenue current newRev then some newRev else some current
      | none => some current
    | none => f.revenue
  else revenue

/- src/main.py lines 38-86, `process_company`: the four field steps are
   independent (each reads and writes only its own field), news merging is
   always on. The same per-company logic appears verbatim in
   src/src/perplexity_enricher.py lines 36-91 (`enrich_firmographics`) with all
   three validations unconditionally enabled. -/
def process_company (args : Args) (f : Fetched) (company : Company) : Company :=
  { company with data :=
    { company.data with
        employees := step_employees args f company.data.employees
        hq_address := step_hq args f company.data.hq_address
        revenue := step_revenue args f company.data.revenue
        news_updates := merge_news company.data.news_updates f.news } }

/- A sequence of enrichment passes, each with its own fetched values. -/
def apply_passes (args : Args) (fetches : List Fetched) (company : Company) : Company :=
  fetches.foldl (fun c f => process_company args f c) company

/- One competitor entry of a Diffbot entity; `comp.get('name','')` etc. fold the
   missing-key default into the field value
   (src/src/firmographics_analyzer.py lines 421-425). -/
structure Competitor where
  name : String
  homepage : String
  summary : String
deriving DecidableEq

/- One location candidate of a Diffbot entity. Each field models the nested
   lookup `loc.get('country', {}).get('name', '')` (and the flat
   `loc.get('postalCode', '')` / `loc.get('address', '')`): `none` is a missing
   key, turned into `''` by the extractor
   (src/src/firmographics_analyzer.py lines 371-377). -/
structure RawLocation where
  country_name : Option String
  city_name : Option String
  region_name : Option String
  postalCode : Option String
  address : Option String
deriving DecidableEq

/- The slice of a Diffbot entity the extractors under proof read. `none` models
   a missing key (`'location' in result['entity']` /
   `'competitors' in result['entity']` false). The Python code also accepts the
   location value as a non-empty list and then takes its first element
   (lines 366-370); the field holds that already-selected first candidate. -/
structure DiffbotEntity where
  location : Option RawLocation
  competitors : Option (List Competitor)
deriving DecidableEq

structure DiffbotResult where
  entity : Option DiffbotEntity
deriving DecidableEq

/- The raw Diffbot document for one company: `data` is `none` when the
   `'data' in diffbot_company` test fails. -/
structure DiffbotCompany where
  data : Option (List DiffbotResult)
deriving DecidableEq

/- The loop body of `_extract_similar_companies`
   (src/src/firmographics_analyzer.py lines 418-425): a result whose entity has
   a competitor list appends its first 10 competitors to the accumulator. -/
def similar_step (similar : List SimilarCompany) (result : DiffbotResult) :
    List SimilarCompany :=
  match result.entity with
  | some entity =>
    match entity.competitors with
    | some competitors =>
      similar ++ (competitors.take 10).map fun comp =>
        ⟨comp.name, comp.homepage, comp.summary⟩
    | none => similar
  | none => similar

/- src/src/firmographics_analyzer.py lines 414-426, `_extract_similar_companies`. -/
def extract_similar_companies (diffbot_company : Option DiffbotCompany) :
    List SimilarCompany :=
  match diffbot_company with
  | some dc =>
    match dc.data with
    | some results => results.foldl similar_step []
    | none => []
  | none => []

/- Builds the address dict of src/src/firmographics_analyzer.py lines 371-377:
   all five keys are always written, each defaulting to the empty string. -/
def mk_location_record (loc : RawLocation) : Location :=
  { country := (loc.country_name).getD ("")
    city := (loc.city_name).getD ("")
    state := (loc.region_name).getD ("")
    postal_code := (loc.postalCode).getD ("")
    full_address := (loc.address).getD ("") }

/- The result loop of `_extract_hq_location` (lines 363-378): return the
   address built from the first result whose entity carries a location,
   else the empty dict. -/
def find_hq_location : List DiffbotResult → Option Location
  | [] => none
  | result :: rest =>
    match result.entity with
    | some entity =>
      match entity.location with
      | some loc => some (mk_location_record loc)
      | none => find_hq_location rest
    | none => find_hq_location rest

/- src/src/firmographics_analyzer.py lines 361-378, `_extract_hq_location`
   (the unused `li_data` parameter is dropped). -/
def extract_hq_location (diffbot_company : Option DiffbotCompany) : Option Location :=
  match diffbot_company with
  | some dc =>
    match dc.data with
    | some results => find_hq_location results
    | none => none
  | none => none

/- The files of the output directory that the orchestrator reads and writes:
   output/enrichment_progress.json (the ProgressLedger) and
   output/firmographics.json (the snapshot); `none` = the file does not exist. -/
structure OutputDir where
  progress : Option (List String)
  snapshot : Option (List Company)
deriving DecidableEq

/- src/main.py lines 179-193 + 203, `archive_existing_outputs`: every `*.json`
   directly under output/ — including enrichment_progress.json and
   firmographics.json — is renamed into output/archive, so afterwards neither
   exists at the path the rest of `main` reads. -/
def archive_existing_outputs (d : OutputDir) : OutputDir :=
  { progress := none, snapshot := none }

/- src/main.py lines 276-297: the enrichment loop. Companies whose name is in
   the ledger are skipped; the others are passed to `process_company`, appended
   to the ledger, and ledger plus snapshot are written before the next company.
   Returns the final record list and the final ledger. -/
def enrich_loop (args : Args) (fetch : String → Fetched) :
    List Company → List String → List Company × List String
  | [], processed => ([], processed)
  | company :: rest, processed =>
    if company.entityName ∈ processed then
      let next := enrich_loop args fetch rest processed
      (company :: next.1, next.2)
    else
      let enriched := process_company args (fetch company.entityName) company
      let next := enrich_loop args fetch rest (processed ++ [company.entityName])
      (enriched :: next.1, next.2)

/- src/main.py `main`, lines 195-297, reduced to its data flow:
   1. line 203: archive every existing output json (ledger included);
   2. lines 217-221: load the ledger only if --resume is set AND the progress
      file still exists (it never does, having just been archived);
   3. lines 254-273: `extract_firmographics` regenerates the snapshot from the
      raw sources (`fresh`) and the loop reads that regenerated file;
   4. lines 276-297: the enrichment loop above. -/
def main_enrichment (args : Args) (fetch : String → Fetched)
    (fresh : List Company) (d : OutputDir) : List Company × List String :=
  let d1 := archive_existing_outputs d
  let processed : List String :=
    if args.resume then
      match d1.progress with
      | some names => names
      | none => []
    else []
  let d2 : OutputDir := { d1 with snapshot := some fresh }
  match d2.snapshot with
  | some records => enrich_loop args fetch records processed
  | none => ([], processed)

/- Concrete inputs used by the counterexamples and witnesses below. -/

/- A Diffbot result whose entity carries six competitors. -/
def six_competitor_result : DiffbotResult :=
  ⟨some ⟨none, some [⟨"c1", "h1", "d1"⟩, ⟨"c2", "h2", "d2"⟩, ⟨"c3", "h3", "d3"⟩,
                     ⟨"c4", "h4", "d4"⟩, ⟨"c5", "h5", "d5"⟩, ⟨"c6", "h6", "d6"⟩]⟩⟩

/- A run with --resume and no per-field validation flags. -/
def resume_args : Args := ⟨false, false, false, true⟩

/- A fetch stub: every company yields no employee/location/revenue data and one
   fresh news item (dated 2025). -/
def fetch_demo : String → Fetched :=
  fun n => ⟨none, none, none, [⟨"px", "2025-01-01", "T25", "u25", "Other"⟩]⟩

/- Company A as the extractors regenerate it from the raw sources. -/
def company_A_fresh : Company :=
  ⟨"A", ⟨"a.com", "li-a", ⟨some 10, some 2⟩, none, none, [], [], [], []⟩⟩

def company_B_fresh : Company :=
  ⟨"B", ⟨"b.com", "li-b", ⟨none, none⟩, none, none, [], [], [], []⟩⟩

/- Company A's record as the interrupted previous run persisted it: already
   enriched with a (2024) news item. -/
def company_A_enriched : Company :=
  ⟨"A", ⟨"a.com", "li-a", ⟨some 10, some 2⟩, none, none, [], [], [],
        [⟨"px", "2024-01-01", "T24", "u24", "Other"⟩]⟩⟩

/- The output directory the interrupted run left behind: a ledger containing A
   but not B, and a snapshot holding A's enriched record. -/
def interrupted_outputs : OutputDir :=
  ⟨some ["A"], some [company_A_enriched, company_B_fresh]⟩

/- ------------------------------------------------------------------ -/
/- Theorems                                                            -/
/- ------------------------------------------------------------------ -/

/-- Claim C9: when `process_company` fetches employee data for a record whose
current `employees.total` is absent or zero, it replaces the whole employees
object by `{'total': T}` (src/main.py line 52), so a previously stored
`it_staff` value is discarded. -/
theorem employees_object_replaced (args : Args) (f : Fetched) (e : Employees) (t : Int)
    (hv : args.validate_employees = true) (h0 : e.total.getD 0 = 0)
    (hf : f.employee = some t) :
    step_employees args f e = { total := some t, it_staff := none } := by
  simp [step_employees, hv, h0, hf]

theorem employees_object_replaced_witness :
    step_employees ⟨true, false, false, false⟩ ⟨some 500, none, none, []⟩ ⟨some 0, some 7⟩
      = { total := some 500, it_staff := none } :=
  employees_object_replaced ⟨true, false, false, false⟩ ⟨some 500, none, none, []⟩
    ⟨some 0, some 7⟩ 500 rfl rfl rfl

/-- Claim C10: news deduplication compares the single joined string
`source-date-title`, so the distinct triples ("a-b", "c", "t") and
("a", "b-c", "t") collide, and the genuinely new second entry is treated as a
duplicate and not appended by `process_company`. -/
theorem news_dedup_identifier_collision :
    news_key ⟨"a-b", "c", "t", "u1", "ty1"⟩ ≠ news_key ⟨"a", "b-c", "t", "u2", "ty2"⟩
    ∧ news_identifier ⟨"a-b", "c", "t", "u1", "ty1"⟩
        = news_identifier ⟨"a", "b-c", "t", "u2", "ty2"⟩
    ∧ (process_company ⟨true, true, true, false⟩
          ⟨none, none, none, [⟨"a", "b-c", "t", "u2", "ty2"⟩]⟩
          ⟨"Acme", ⟨"u", "l", ⟨none, none⟩, none, none, [], [], [],
                   [⟨"a-b", "c", "t", "u1", "ty1"⟩]⟩⟩).data.news_updates
        = [⟨"a-b", "c", "t", "u1", "ty1"⟩] :=
  ⟨by decide, by decide, by decide⟩

/-- Claim C5 (counterexample): with both totals non-zero — current 100, newly
fetched −100 — the relative difference |100 − (−100)|/100 = 2 exceeds the 15%
threshold, yet `_should_update_employees` does not replace, because its ratio
branch additionally requires the new total to be positive. -/
theorem employees_update_rule_cx :
    should_update_employees ⟨some 100, none⟩ ⟨some (-100), none⟩ = false
    ∧ (100 : Int) ≠ 0 ∧ (-100 : Int) ≠ 0
    ∧ (15 / 100 : ℚ) < |((100 : Int) : ℚ) - ((-100 : Int) : ℚ)| / ((100 : Int) : ℚ) := by
  refine ⟨by decide, by decide, by decide, by norm_num⟩

/-- Claim C5 (amended): if the current total is 0 (or absent) and a newly
fetched total T > 0 exists, the merged total equals T; if both totals are
non-zero, the new value replaces the current one exactly when it is positive
and the relative difference |current − new|/current exceeds the configured 15%
threshold. -/
theorem employees_update_rule :
    (∀ (args : Args) (f : Fetched) (e : Employees) (t : Int),
        args.validate_employees = true → e.total.getD 0 = 0 → f.employee = some t →
        0 < t → (step_employees args f e).total = some t)
    ∧ (∀ (c n : Int) (i j : Option Int), c ≠ 0 → n ≠ 0 →
        (should_update_employees ⟨some c, i⟩ ⟨some n, j⟩ = true ↔
          0 < n ∧ (15 / 100 : ℚ) < |(c : ℚ) - (n : ℚ)| / (c : ℚ))) := by
  constructor
  · intro args f e t hv h0 hf ht
    simp [step_employees, hv, h0, hf]
  · intro c n i j hc hn
    simp only [should_update_employees, Option.getD_some]
    rw [if_neg hc]
    by_cases hpos : 0 < n
    · rw [if_pos hpos]
      simp [hpos, decide_eq_true_iff]
    · rw [if_neg hpos]
      simp [hpos]

theorem employees_update_rule_witness :
    (step_employees ⟨true, false, false, false⟩ ⟨some 400, none, none, []⟩
        ⟨none, some 3⟩).total = some 400
    ∧ (should_update_employees ⟨some 100, none⟩ ⟨some 130, none⟩ = true ↔
        0 < (130 : Int) ∧
        (15 / 100 : ℚ) < |((100 : Int) : ℚ) - ((130 : Int) : ℚ)| / ((100 : Int) : ℚ)) :=
  ⟨employees_update_rule.1 ⟨true, false, false, false⟩ ⟨some 400, none, none, []⟩
      ⟨none, some 3⟩ 400 rfl rfl rfl (by norm_num),
   employees_update_rule.2 100 130 none none (by norm_num) (by norm_num)⟩

/-- Claim C6: with a non-empty current and new address, the new value replaces
the current one if it has strictly more populated sub-fields; otherwise it
replaces exactly when fewer than 2 of country/city/state match
case-insensitively and the new value is not less complete; in particular, if
the current address has fewer populated fields than the new one, the record's
address becomes the new one. -/
theorem location_update_rule :
    (∀ current newLoc : Location,
        count_location_fields current < count_location_fields newLoc →
        should_update_location current newLoc = true)
    ∧ (∀ current newLoc : Location,
        ¬ count_location_fields current < count_location_fields newLoc →
        (should_update_location current newLoc = true ↔
          matching_key_fields current newLoc < 2 ∧
          count_location_fields current ≤ count_location_fields newLoc))
    ∧ (∀ (args : Args) (f : Fetched) (current newLoc : Location),
        args.validate_location = true → f.location = some newLoc →
        count_location_fields current < count_location_fields newLoc →
        step_hq args f (some current) = some newLoc) := by
  refine ⟨?_, ?_, ?_⟩
  · intro current newLoc h
    simp [should_update_location, h]
  · intro current newLoc h
    simp [should_update_location, h]
  · intro args f current newLoc hv hf h
    simp [step_hq, hv, hf, should_update_location, h]

theorem location_update_rule_witness :
    step_hq ⟨false, true, false, false⟩
        ⟨none, some ⟨"AU", "Sydney", "NSW", "2000", "X"⟩, none, []⟩
        (some ⟨"US", "", "", "", ""⟩) = some ⟨"AU", "Sydney", "NSW", "2000", "X"⟩ :=
  location_update_rule.2.2 ⟨false, true, false, false⟩
    ⟨none, some ⟨"AU", "Sydney", "NSW", "2000", "X"⟩, none, []⟩
    ⟨"US", "", "", "", ""⟩ ⟨"AU", "Sydney", "NSW", "2000", "X"⟩ rfl rfl (by decide)

/-- Claim C7: the new revenue replaces the current one if the current amount is
empty and the new one is not; if both amounts are present and the relative
difference exceeds the configured 20% threshold, it replaces exactly when the
new value has at least as many populated sub-fields; in every other case the
current value is kept. -/
theorem revenue_update_rule :
    (∀ current newRev : Revenue, current.amount = 0 → newRev.amount ≠ 0 →
        should_update_revenue current newRev = true)
    ∧ (∀ current newRev : Revenue, current.amount ≠ 0 → newRev.amount ≠ 0 →
        (1 / 5 : ℚ) < relative_difference current.amount newRev.amount →
        (should_update_revenue current newRev = true ↔
          count_revenue_fields current ≤ count_revenue_fields newRev))
    ∧ (∀ current newRev : Revenue,
        ¬ (current.amount = 0 ∧ newRev.amount ≠ 0) →
        ¬ (current.amount ≠ 0 ∧ newRev.amount ≠ 0 ∧
            (1 / 5 : ℚ) < relative_difference current.amount newRev.amount) →
        should_update_revenue current newRev = false) := by
  refine ⟨?_, ?_, ?_⟩
  · intro current newRev h0 hn
    simp [should_update_revenue, h0, hn]
  · intro current newRev hc hn hd
    simp only [should_update_revenue]
    rw [if_neg (fun h => hc h.1), if_pos ⟨hc, hn⟩, if_pos hd]
    simp [decide_eq_true_iff]
  · intro current newRev h1 h2
    simp only [should_update_revenue]
    rw [if_neg h1]
    by_cases hboth : current.amount ≠ 0 ∧ newRev.amount ≠ 0
    · rw [if_pos hboth]
      have hlt : ¬ (1 / 5 : ℚ) < relative_difference current.amount newRev.amount :=
        fun hC => h2 ⟨hboth.1, hboth.2, hC⟩
      rw [if_neg hlt]
    · rw [if_neg hboth]

theorem revenue_update_rule_witness :
    should_update_revenue ⟨100, "USD", ""⟩ ⟨130, "USD", "1B-2B"⟩ = true
    ∧ should_update_revenue ⟨100, "USD", ""⟩ ⟨116, "USD", ""⟩ = false :=
  ⟨(revenue_update_rule.2.1 ⟨100, "USD", ""⟩ ⟨130, "USD", "1B-2B"⟩ (by norm_num)
      (by norm_num) (by norm_num [relative_difference])).mpr (by decide),
   revenue_update_rule.2.2 ⟨100, "USD", ""⟩ ⟨116, "USD", ""⟩ (by norm_num)
      (by norm_num [relative_difference])⟩

lemma similar_step_append (acc : List SimilarCompany) (r : DiffbotResult) :
    similar_step acc r = acc ++ similar_step [] r := by
  cases he : r.entity with
  | none => simp [similar_step, he]
  | some e =>
    cases hc : e.competitors with
    | none => simp [similar_step, he, hc]
    | some cs => simp [similar_step, he, hc]

lemma foldl_similar_step (results : List DiffbotResult) :
    ∀ acc, results.foldl similar_step acc = acc ++ results.foldl similar_step [] := by
  induction results with
  | nil => intro acc; simp
  | cons r rest ih =>
    intro acc
    rw [List.foldl_cons, ih (similar_step acc r), List.foldl_cons,
        ih (similar_step [] r), similar_step_append acc r, List.append_assoc]

lemma extract_similar_flatten (results : List DiffbotResult) :
    results.foldl similar_step [] =
      ((results.filterMap fun r => (r.entity).bind fun e => e.competitors).map
        fun comps => (comps.take 10).map fun comp =>
          (⟨comp.name, comp.homepage, comp.summary⟩ : SimilarCompany)).flatten := by
  induction results with
  | nil => simp
  | cons r rest ih =>
    rw [List.foldl_cons, foldl_similar_step rest (similar_step [] r), ih]
    cases he : r.entity with
    | none => simp [similar_step, he, List.filterMap_cons]
    | some e =>
      cases hc : e.competitors with
      | none => simp [similar_step, he, hc, List.filterMap_cons]
      | some cs => simp [similar_step, he, hc, List.filterMap_cons]

/-- Claim C3 (counterexample): a payload whose data array holds two results
with six competitors each produces a similar_companies list of 12 entries —
the 10-entry cap of `_extract_similar_companies` applies per result, not to
the whole list. -/
theorem similar_companies_cap_cx :
    (extract_similar_companies
        (some ⟨some [six_competitor_result, six_competitor_result]⟩)).length = 12
    ∧ ¬ (extract_similar_companies
        (some ⟨some [six_competitor_result, six_competitor_result]⟩)).length ≤ 10 :=
  ⟨by decide, by decide⟩

/-- Claim C3 (amended): similar_companies is the concatenation, over the
results of the secondary payload's data array in order, of the first at most
10 entries of each result's competitor list with source order preserved; in
particular, when at most one result carries a competitor list the produced
sequence has at most 10 entries. -/
theorem similar_companies_per_result_cap (results : List DiffbotResult) :
    extract_similar_companies (some ⟨some results⟩) =
      ((results.filterMap fun r => (r.entity).bind fun e => e.competitors).map
        fun comps => (comps.take 10).map fun comp =>
          (⟨comp.name, comp.homepage, comp.summary⟩ : SimilarCompany)).flatten
    ∧ ((results.filterMap fun r => (r.entity).bind fun e => e.competitors).length ≤ 1 →
        (extract_similar_companies (some ⟨some results⟩)).length ≤ 10) := by
  have hflat : extract_similar_companies (some ⟨some results⟩) =
      ((results.filterMap fun r => (r.entity).bind fun e => e.competitors).map
        fun comps => (comps.take 10).map fun comp =>
          (⟨comp.name, comp.homepage, comp.summary⟩ : SimilarCompany)).flatten :=
    extract_similar_flatten results
  refine ⟨hflat, fun h => ?_⟩
  rw [hflat]
  rcases hL : results.filterMap fun r => (r.entity).bind fun e => e.competitors with
    _ | ⟨c, tail⟩
  · simp [hL]
  · rcases tail with _ | ⟨c2, t2⟩
    · simp only [hL, List.map_cons, List.map_nil, List.flatten_cons, List.flatten_nil,
        List.append_nil, List.length_map, List.length_take]
      omega
    · rw [hL] at h
      simp at h

theorem similar_companies_per_result_cap_witness :
    (extract_similar_companies (some ⟨some [six_competitor_result]⟩)).length ≤ 10 :=
  (similar_companies_per_result_cap [six_competitor_result]).2 (by decide)

/-- Claim C4 (counterexample): a Diffbot location carrying only a country name
yields the address {country: "US", city: "", state: "", postal_code: "",
full_address: ""} — a non-empty but only partially populated address object,
so hq_address is not "either empty or fully populated". -/
theorem hq_address_all_or_nothing_cx :
    extract_hq_location
        (some ⟨some [⟨some ⟨some ⟨some ("US"), none, none, none, none⟩, none⟩⟩]⟩)
      = some ⟨"US", "", "", "", ""⟩
    ∧ ¬ (∀ (dc : Option DiffbotCompany) (l : Location),
          extract_hq_location dc = some l →
          l.country ≠ "" ∧ l.city ≠ "" ∧ l.state ≠ "" ∧
          l.postal_code ≠ "" ∧ l.full_address ≠ "") := by
  refine ⟨rfl, fun h => ?_⟩
  exact (h (some ⟨some [⟨some ⟨some ⟨some ("US"), none, none, none, none⟩, none⟩⟩]⟩)
      ⟨"US", "", "", "", ""⟩ rfl).2.1 rfl

lemma find_hq_location_eq (results : List DiffbotResult) :
    find_hq_location results =
      (results.findSome? fun r => (r.entity).bind fun e => e.location).map
        mk_location_record := by
  induction results with
  | nil => simp [find_hq_location]
  | cons r rest ih =>
    cases he : r.entity with
    | none => simp [find_hq_location, he, List.findSome?_cons, ih]
    | some e =>
      cases hl : e.location with
      | none => simp [find_hq_location, he, hl, List.findSome?_cons, ih]
      | some loc => simp [find_hq_location, he, hl, List.findSome?_cons]

/-- Claim C4 (amended): hq_address is all-or-nothing at the object level — it
is either empty or an address object built atomically (all five keys written)
from the first location-bearing result of the payload, never merged across
candidates; its individual sub-fields, however, may be empty strings. -/
theorem hq_address_atomic_first_match (results : List DiffbotResult) :
    extract_hq_location (some ⟨some results⟩) =
      (results.findSome? fun r => (r.entity).bind fun e => e.location).map
        mk_location_record :=
  find_hq_location_eq results

lemma append_news_extends :
    ∀ (additional acc : List NewsItem) (idents : List String),
      ∃ app, append_news acc idents additional = acc ++ app := by
  intro additional
  induction additional with
  | nil => intro acc idents; exact ⟨[], by simp [append_news]⟩
  | cons item rest ih =>
    intro acc idents
    by_cases h : news_identifier item ∈ idents
    · obtain ⟨app, happ⟩ := ih acc idents
      exact ⟨app, by simp [append_news, h, happ]⟩
    · obtain ⟨app, happ⟩ := ih (acc ++ [item]) (news_identifier item :: idents)
      exact ⟨item :: app, by simp [append_news, h, happ]⟩

lemma append_news_noop :
    ∀ (additional acc : List NewsItem) (idents : List String),
      (∀ i ∈ additional, news_identifier i ∈ idents) →
      append_news acc idents additional = acc := by
  intro additional
  induction additional with
  | nil => intro acc idents _; rfl
  | cons item rest ih =>
    intro acc idents h
    have hitem : news_identifier item ∈ idents := h item (by simp)
    simp only [append_news, if_pos hitem]
    exact ih acc idents fun i hi => h i (by simp [hi])

lemma mem_map_append_news (acc : List NewsItem) (idents : List String)
    (additional : List NewsItem) {s : String}
    (hs : s ∈ acc.map news_identifier) :
    s ∈ (append_news acc idents additional).map news_identifier := by
  obtain ⟨app, happ⟩ := append_news_extends additional acc idents
  rw [happ, List.map_append]
  exact List.mem_append_left _ hs

lemma append_news_mem_ids :
    ∀ (additional acc : List NewsItem) (idents : List String),
      (∀ s ∈ idents, s ∈ acc.map news_identifier) →
      ∀ i ∈ additional,
        news_identifier i ∈ (append_news acc idents additional).map news_identifier := by
  intro additional
  induction additional with
  | nil => intro acc idents _ i hi; cases hi
  | cons item rest ih =>
    intro acc idents hsub i hi
    by_cases h : news_identifier item ∈ idents
    · simp only [append_news, if_pos h]
      rcases List.mem_cons.mp hi with rfl | hi
      · exact mem_map_append_news acc idents rest (hsub _ h)
      · exact ih acc idents hsub i hi
    · simp only [append_news, if_neg h]
      have hsub' : ∀ s ∈ news_identifier item :: idents,
          s ∈ (acc ++ [item]).map news_identifier := by
        intro s hsmem
        rcases List.mem_cons.mp hsmem with rfl | hsmem
        · simp
        · rw [List.map_append]
          exact List.mem_append_left _ (hsub s hsmem)
      rcases List.mem_cons.mp hi with rfl | hi
      · exact mem_map_append_news _ _ rest (hsub' _ (by simp))
      · exact ih _ _ hsub' i hi

lemma merge_news_extends (existing additional : List NewsItem) :
    ∃ app, merge_news existing additional = existing ++ app :=
  append_news_extends additional existing (existing.map news_identifier)

lemma merge_news_idem (existing additional : List NewsItem) :
    merge_news (merge_news existing additional) additional
      = merge_news existing additional :=
  append_news_noop additional (merge_news existing additional)
    ((merge_news existing additional).map news_identifier)
    (append_news_mem_ids additional existing (existing.map news_identifier)
      (fun _ hs => hs))

lemma news_key_congr {a b : NewsItem} (h : news_key a = news_key b) :
    news_identifier a = news_identifier b := by
  have h1 : a.source = b.source := congrArg Prod.fst h
  have h2 : a.date = b.date := congrArg (fun p => p.2.1) h
  have h3 : a.title = b.title := congrArg (fun p => p.2.2) h
  simp [news_identifier, h1, h2, h3]

lemma append_news_distinct :
    ∀ (additional acc : List NewsItem) (idents : List String),
      acc.Pairwise (fun a b => news_key a ≠ news_key b) →
      (∀ a ∈ acc, news_identifier a ∈ idents) →
      (append_news acc idents additional).Pairwise fun a b => news_key a ≠ news_key b := by
  intro additional
  induction additional with
  | nil => intro acc idents hp _; exact hp
  | cons item rest ih =>
    intro acc idents hp hids
    by_cases h : news_identifier item ∈ idents
    · simp only [append_news, if_pos h]
      exact ih acc idents hp hids
    · simp only [append_news, if_neg h]
      apply ih
      · rw [List.pairwise_append]
        refine ⟨hp, List.pairwise_singleton _ _, ?_⟩
        intro a ha b hb hkey
        have hb' : b = item := List.mem_singleton.mp hb
        subst hb'
        exact h (news_key_congr hkey ▸ hids a ha)
      · intro a ha
        rcases List.mem_append.mp ha with ha | ha
        · exact List.mem_cons_of_mem _ (hids a ha)
        · have ha' : a = item := List.mem_singleton.mp ha
          subst ha'
          exact List.mem_cons_self _ _

lemma merge_news_distinct (existing additional : List NewsItem)
    (h : distinct_news existing) : distinct_news (merge_news existing additional) :=
  append_news_distinct additional existing (existing.map news_identifier) h
    (fun _ ha => List.mem_map_of_mem _ ha)

/-- Claim C1 (counterexample): a record whose news_updates already holds the
same entry twice keeps both copies through an enrichment pass, so without an
assumption on the starting record the resulting sequence can contain two
entries with identical (source, date, title). -/
theorem news_updates_append_only_cx :
    ¬ distinct_news ((apply_passes ⟨true, true, true, false⟩ [⟨none, none, none, []⟩]
        ⟨"Acme", ⟨"u", "l", ⟨none, none⟩, none, none, [], [], [],
                 [⟨"s", "d", "t", "u1", "ty1"⟩,
                  ⟨"s", "d", "t", "u1", "ty1"⟩]⟩⟩).data.news_updates) := by
  decide

/-- Claim C1 (amended): for every company record and every sequence of
enrichment passes, news_updates never loses an entry already present and only
grows by appending at the end; and whenever the starting sequence has no two
entries with identical (source, date, title), the resulting sequence has none
either. -/
theorem news_updates_append_only (args : Args) (fetches : List Fetched) (c : Company) :
    (∃ appended, (apply_passes args fetches c).data.news_updates
        = c.data.news_updates ++ appended)
    ∧ (distinct_news c.data.news_updates →
        distinct_news (apply_passes args fetches c).data.news_updates) := by
  induction fetches generalizing c with
  | nil => exact ⟨⟨[], by simp [apply_passes]⟩, fun h => h⟩
  | cons f fs ih =>
    have hstep : apply_passes args (f :: fs) c
        = apply_passes args fs (process_company args f c) := by
      simp [apply_passes]
    have hnews : (process_company args f c).data.news_updates
        = merge_news c.data.news_updates f.news := rfl
    constructor
    · obtain ⟨app2, happ2⟩ := (ih (process_company args f c)).1
      obtain ⟨app1, happ1⟩ := merge_news_extends c.data.news_updates f.news
      refine ⟨app1 ++ app2, ?_⟩
      rw [hstep, happ2, hnews, happ1, List.append_assoc]
    · intro hd
      rw [hstep]
      exact (ih (process_company args f c)).2
        (by rw [hnews]; exact merge_news_distinct _ _ hd)

theorem news_updates_append_only_witness :
    distinct_news ((apply_passes ⟨true, true, true, false⟩
        [⟨none, none, none, [⟨"s2", "d2", "t2", "u2", "ty2"⟩]⟩]
        ⟨"Acme", ⟨"u", "l", ⟨none, none⟩, none, none, [], [], [],
                 [⟨"s1", "d1", "t1", "u1", "ty1"⟩]⟩⟩).data.news_updates) :=
  (news_updates_append_only ⟨true, true, true, false⟩
      [⟨none, none, none, [⟨"s2", "d2", "t2", "u2", "ty2"⟩]⟩]
      ⟨"Acme", ⟨"u", "l", ⟨none, none⟩, none, none, [], [], [],
               [⟨"s1", "d1", "t1", "u1", "ty1"⟩]⟩⟩).2 (by decide)

lemma should_update_pos {e : Employees} {t : Int}
    (h0 : ¬ e.total.getD 0 = 0)
    (h : should_update_employees e ⟨some t, none⟩ = true) : 0 < t := by
  by_contra hneg
  simp only [should_update_employees, Option.getD_some] at h
  rw [if_neg h0, if_neg hneg] at h
  exact Bool.false_ne_true h

lemma step_employees_no_fetch (args : Args) (f : Fetched) (e : Employees)
    (hf : f.employee = none) : step_employees args f e = e := by
  cases hv : args.validate_employees with
  | false => simp [step_employees, hv]
  | true => by_cases h0 : e.total.getD 0 = 0 <;> simp [step_employees, hv, h0, hf]

lemma step_employees_idem (args : Args) (f : Fetched) (e : Employees) :
    step_employees args f (step_employees args f e) = step_employees args f e := by
  cases hv : args.validate_employees with
  | false => simp [step_employees, hv]
  | true =>
    cases hf : f.employee with
    | none =>
      rw [step_employees_no_fetch args f e hf]
      exact step_employees_no_fetch args f e hf
    | some t =>
      by_cases h0 : e.total.getD 0 = 0
      · have h1 : step_employees args f e = ⟨some t, none⟩ := by
          simp [step_employees, hv, h0, hf]
        rw [h1]
        by_cases ht : t = 0
        · subst ht
          simp [step_employees, hv, hf]
        · simp [step_employees, hv, hf, ht]
      · cases hu : should_update_employees e ⟨some t, none⟩ with
        | false =>
          have h1 : step_employees args f e = e := by
            simp [step_employees, hv, h0, hf, hu]
          rw [h1]
          exact h1
        | true =>
          have ht : 0 < t := should_update_pos h0 hu
          have h1 : step_employees args f e = { e with total := some t } := by
            simp [step_employees, hv, h0, hf, hu]
          have ht0 : t ≠ 0 := by omega
          rw [h1]
          simp [step_employees, hv, hf, ht0]

lemma step_hq_idem (args : Args) (f : Fetched) (hq : Option Location) :
    step_hq args f (step_hq args f hq) = step_hq args f hq := by
  cases hv : args.validate_location with
  | false => simp [step_hq, hv]
  | true =>
    cases hf : f.location with
    | none => cases hq <;> simp [step_hq, hv, hf]
    | some nl =>
      have hself : step_hq args f (some nl) = some nl := by
        simp [step_hq, hv, hf]
      cases hq with
      | none =>
        have h1 : step_hq args f none = some nl := by simp [step_hq, hv, hf]
        rw [h1, hself]
      | some cur =>
        cases hu : should_update_location cur nl with
        | true =>
          have h1 : step_hq args f (some cur) = some nl := by
            simp [step_hq, hv, hf, hu]
          rw [h1, hself]
        | false =>
          have h1 : step_hq args f (some cur) = some cur := by
            simp [step_hq, hv, hf, hu]
          rw [h1]
          exact h1

lemma step_revenue_idem (args : Args) (f : Fetched) (rev : Option Revenue) :
    step_revenue args f (step_revenue args f rev) = step_revenue args f rev := by
  cases hv : args.validate_revenue with
  | false => simp [step_revenue, hv]
  | true =>
    cases hf : f.revenue with
    | none => cases rev <;> simp [step_revenue, hv, hf]
    | some nr =>
      have hself : step_revenue args f (some nr) = some nr := by
        simp [step_revenue, hv, hf]
      cases rev with
      | none =>
        have h1 : step_revenue args f none = some nr := by simp [step_revenue, hv, hf]
        rw [h1, hself]
      | some cur =>
        cases hu : should_update_revenue cur nr with
        | true =>
          have h1 : step_revenue args f (some cur) = some nr := by
            simp [step_revenue, hv, hf, hu]
          rw [h1, hself]
        | false =>
          have h1 : step_revenue args f (some cur) = some cur := by
            simp [step_revenue, hv, hf, hu]
          rw [h1]
          exact h1

/-- Claim C2: running the enrichment pass a second time on the output of a
first pass, with the upstream source returning the same values both times,
reproduces the first pass's record exactly. -/
theorem process_company_idempotent (args : Args) (f : Fetched) (c : Company) :
    process_company args f (process_company args f c) = process_company args f c := by
  cases c with
  | mk name data =>
    cases data with
    | mk curl luri emp hq rev iv sc tech news =>
      simp only [process_company]
      rw [step_employees_idem, step_hq_idem, step_revenue_idem, merge_news_idem]

/-- Claim C8 (code-bug demonstration): starting from an output directory whose
ledger contains A but not B, a --resume run still enriches A: line 203 of
src/main.py archives enrichment_progress.json before lines 217-221 try to read
it, so the loaded ledger is empty, both A and B are passed to
`process_company`, and A's persisted record differs from the one the previous
run left behind. -/
theorem resume_replays_processed_company :
    (main_enrichment resume_args fetch_demo [company_A_fresh, company_B_fresh]
        interrupted_outputs).2 = ["A", "B"]
    ∧ (main_enrichment resume_args fetch_demo [company_A_fresh, company_B_fresh]
        interrupted_outputs).1
      = [process_company resume_args (fetch_demo ("A")) company_A_fresh,
         process_company resume_args (fetch_demo ("B")) company_B_fresh]
    ∧ (main_enrichment resume_args fetch_demo [company_A_fresh, company_B_fresh]
        interrupted_outputs).1.head? ≠ some company_A_enriched :=
  ⟨by decide, by decide, by decide⟩

end CrawlEnrich
